import Mathlib

/-
Verification of the ProgressDB Python backend SDK signature cache
(src/clients/sdk/backend/python/src/progressdb/client/http.py) and the
pagination validation helper
(src/clients/sdk/backend/python/src/progressdb/utils/validation.py,
src/clients/sdk/backend/python/src/progressdb/services/threads.py).

The Python code is shallowly embedded: the mutable `HTTPClient` object is a
state value threaded explicitly, `time.time()` is an explicit `now` parameter
(integer milliseconds; Python ints are unbounded so `Nat` is exact), and the
single `requests.post` of the slow path is an oracle value `NetResult`
describing what the network returned.  Raised exceptions are `Except.error`.
-/

/-- Association-list get, modelling Python `dict.get(k)` (keys are unique in a
dict, so first-match lookup agrees with dict lookup). -/
def alist_get {α β : Type} [DecidableEq α] : List (α × β) → α → Option β
  | [], _ => none
  | (k, v) :: t, q => if k = q then some v else alist_get t q

/-- Association-list set, modelling Python `d[k] = v`: replaces the binding of
`k` when present, otherwise appends it. -/
def alist_set {α β : Type} [DecidableEq α] : List (α × β) → α → β → List (α × β)
  | [], k, v => [(k, v)]
  | (k0, v0) :: t, k, v => if k0 = k then (k, v) :: t else (k0, v0) :: alist_set t k v

/-- Association-list removal of the binding of `k`, modelling Python
`d.pop(k, None)` (no-op when the key is absent). -/
def alist_pop {α β : Type} [DecidableEq α] : List (α × β) → α → List (α × β)
  | [], _ => []
  | (k0, v0) :: t, k => if k0 = k then t else (k0, v0) :: alist_pop t k

/-- `pyTruthy o` models Python truthiness of an optional string: `None` and the
empty string are falsy, every other string is truthy. -/
def pyTruthy : Option String → Bool
  | some s => s != ""
  | none => false

/-- `pyStrOr o d` models the Python expression `o or d` for an optional string
`o`: `None` and `""` fall through to the default. -/
def pyStrOr : Option String → String → String
  | some s, d => if s = "" then d else s
  | none, d => d

/-- A cached signature entry: the dict
`{'signature': ..., 'expires': ...}` written at http.py line 133. -/
structure CacheEntry where
  signature : String
  expires : Nat
deriving Repr, DecidableEq

/-- The `HTTPClient` state (http.py lines 10-19).  `signature_cache` is the
`_signature_cache` dict, as an association list with unique keys. -/
structure HTTPClient where
  base_url : String
  api_key : Option String
  default_user_id : Option String
  default_user_signature : Option String
  mode : String
  timeout : Nat
  signature_cache : List (String × CacheEntry)
deriving Repr, DecidableEq

/-- What the body of the signing response parses to: `malformed` when
`response.json()` raises, otherwise the JSON object with its optional
`signature` field (opaque string; other fields are ignored by the code). -/
inductive SignBody where
  | malformed : SignBody
  | json : Option String → SignBody
deriving Repr, DecidableEq

/-- Oracle for the single `requests.post` of the slow path (http.py line 125):
either the transport fails (a `requests.RequestException` is raised), or a
response with an HTTP status code and a body arrives. -/
inductive NetResult where
  | transportError : NetResult
  | response : Nat → SignBody → NetResult
deriving Repr, DecidableEq

deriving instance DecidableEq for Except

/-- Result of one `_get_or_generate_signature` call: the returned string or
the raised exception, the client state after the call, and how many network
requests the call performed. -/
structure SigResult where
  result : Except String String
  client : HTTPClient
  network_calls : Nat
deriving Repr, DecidableEq

/-- Slow path of `_get_or_generate_signature` (http.py lines 121-138): POST to
the signing endpoint, raise if `response.ok` is false (`requests` defines `ok`
as `status_code < 400`), raise if the body fails to parse or lacks the
`signature` key, otherwise cache the signature for `5 * 60 * 1000` ms and
return it. -/
def generate_signature (c : HTTPClient) (user_id : String) (now : Nat)
    (net : NetResult) : SigResult :=
  match net with
  | NetResult.transportError => ⟨Except.error "RequestException", c, 1⟩
  | NetResult.response status body =>
    if status < 400 then
      match body with
      | SignBody.malformed => ⟨Except.error "JSONDecodeError", c, 1⟩
      | SignBody.json none => ⟨Except.error "KeyError: signature", c, 1⟩
      | SignBody.json (some signature) =>
        let entry : CacheEntry := ⟨signature, now + 5 * 60 * 1000⟩
        ⟨Except.ok signature,
         { c with signature_cache := alist_set c.signature_cache user_id entry }, 1⟩
    else ⟨Except.error "Failed to generate signature", c, 1⟩

/-- `_get_or_generate_signature` (http.py lines 109-138).  Outside backend
mode it returns `self.default_user_signature or ''` at once.  Otherwise the
cache is consulted: `if cached and cached['expires'] > now` serves the cached
signature with no I/O (a stored entry dict is always non-empty, hence truthy),
and every other case takes the slow path. -/
def get_or_generate_signature (c : HTTPClient) (user_id : String) (now : Nat)
    (net : NetResult) : SigResult :=
  if c.mode ≠ "backend" then
    ⟨Except.ok (pyStrOr c.default_user_signature ""), c, 0⟩
  else
    match alist_get c.signature_cache user_id with
    | some cached =>
      if cached.expires > now then ⟨Except.ok cached.signature, c, 0⟩
      else generate_signature c user_id now net
    | none => generate_signature c user_id now net

/-- `clear_signature_cache` (http.py lines 140-145).  Note the Python guard is
`if user_id:` — truthiness, not an `is None` test — so `None` and the empty
string both select the clear-all branch. -/
def clear_signature_cache (c : HTTPClient) (user_id : Option String) : HTTPClient :=
  if pyTruthy user_id then
    { c with signature_cache := alist_pop c.signature_cache (user_id.getD "") }
  else
    { c with signature_cache := [] }

/-- The dict returned by `get_cache_stats`. -/
structure CacheStats where
  size : Nat
  entries : List (String × CacheEntry)
deriving Repr, DecidableEq

/-- `get_cache_stats` (http.py lines 147-152): reads the size and a
`dict(...)` copy of the mapping; the second component is the (unchanged)
client state after the call. -/
def get_cache_stats (c : HTTPClient) : CacheStats × HTTPClient :=
  (⟨c.signature_cache.length, c.signature_cache⟩, c)

/-- `failsSlow net` is true exactly on the oracle values on which the slow
path raises: transport failure, `response.ok` false (status ≥ 400), body that
fails to parse, or body without a `signature` key. -/
def failsSlow : NetResult → Bool
  | NetResult.transportError => true
  | NetResult.response status body =>
    decide (400 ≤ status) ||
      (match body with
       | SignBody.malformed => true
       | SignBody.json none => true
       | SignBody.json (some _) => false)

/-- One cache operation of the `HTTPClient` API, with its oracle inputs. -/
inductive Op where
  | sig : String → Nat → NetResult → Op
  | clear : Option String → Op
  | stats : Op
deriving Repr, DecidableEq

/-- State transition of one operation (outputs discarded). -/
def applyOp (c : HTTPClient) : Op → HTTPClient
  | Op.sig uid now net => (get_or_generate_signature c uid now net).client
  | Op.clear uid => clear_signature_cache c uid
  | Op.stats => (get_cache_stats c).2

/-- State after a sequence of operations. -/
def applyOps (c : HTTPClient) (ops : List Op) : HTTPClient :=
  ops.foldl applyOp c

/-- Every entry in the cache carries an expiry of the form
`writeTime + 300000`, hence was strictly unexpired at the instant of its
write. -/
def ValidAtWrite (c : HTTPClient) : Prop :=
  ∀ p ∈ c.signature_cache, ∃ w : Nat, p.2.expires = w + 300000 ∧ w < p.2.expires

/-- `touches op id` over-approximates whether `op` may remove or overwrite the
cache entry of `id`: a signature call for `id` itself, a clear naming `id`,
or a clear-all (no argument, or the falsy empty-string argument). -/
def touches : Op → String → Bool
  | Op.sig uid _ _, id => uid == id
  | Op.clear (some uid), id => uid == "" || uid == id
  | Op.clear none, _ => true
  | Op.stats, _ => false

/-- `ThreadListQueryType` (types/queries.py): the optional pagination and
sorting parameters a caller may pass to `list_threads`. -/
structure ThreadListQuery where
  limit : Option Int
  before : Option String
  after : Option String
  anchor : Option String
  sort_by : Option String
deriving Repr, DecidableEq

/-- `validate_pagination_query` (utils/validation.py lines 4-9): counts the
truthy values among the keys `before`, `after`, `anchor` and raises
`ValueError` when more than one is set. -/
def validate_pagination_query (query : ThreadListQuery) : Except String Unit :=
  let ref_count :=
    (if pyTruthy query.before then 1 else 0) +
    (if pyTruthy query.after then 1 else 0) +
    (if pyTruthy query.anchor then 1 else 0)
  if ref_count > 1 then
    Except.error "only one of anchor, before, after can be specified"
  else
    Except.ok ()

/-- The number of truthy values among `before`, `after`, `anchor` in a query
(the `ref_count` of validation.py line 6). -/
def numRefs (query : ThreadListQuery) : Nat :=
  (if pyTruthy query.before then 1 else 0) +
  (if pyTruthy query.after then 1 else 0) +
  (if pyTruthy query.anchor then 1 else 0)

/-- The request `ThreadsService.list_threads` hands to the HTTP client: path
template, method, and the query-string parameters in insertion order (the
url-encoding of the pairs is presentation glue and not modelled). -/
structure HttpRequest where
  path : String
  method : String
  qs_params : List (String × String)
deriving Repr, DecidableEq

/-- `ThreadsService.list_threads` (services/threads.py lines 56-89):
validates the pagination query first (a `ValueError` propagates, so no
request is built), then assembles `qs_params` — `limit` under an
`is not None` test, the string keys under truthiness — and issues a GET. -/
def list_threads (query : ThreadListQuery) : Except String HttpRequest :=
  match validate_pagination_query query with
  | Except.error e => Except.error e
  | Except.ok _ =>
    let qs1 : List (String × String) :=
      match query.limit with
      | some n => [("limit", toString n)]
      | none => []
    let qs2 := qs1 ++ (if pyTruthy query.before then [("before", query.before.getD "")] else [])
    let qs3 := qs2 ++ (if pyTruthy query.after then [("after", query.after.getD "")] else [])
    let qs4 := qs3 ++ (if pyTruthy query.anchor then [("anchor", query.anchor.getD "")] else [])
    let qs5 := qs4 ++ (if pyTruthy query.sort_by then [("sort_by", query.sort_by.getD "")] else [])
    Except.ok ⟨"/frontend/v1/threads", "GET", qs5⟩

/-
Reference-level model of the cache, for the snapshot-copy property of
`get_cache_stats`.  Python dicts hold references to the entry dicts, and
`dict(self._signature_cache)` (http.py line 151) copies only the outer
mapping, so the snapshot shares the entry dicts with the live cache.  The
model makes that aliasing explicit: `heap` maps references (allocation
numbers) to entry values, `cache` maps identities to references, and every
mutation of the cache allocates a fresh reference (http.py line 133 builds a
brand-new dict literal) — no heap cell is ever overwritten in place.
-/

/-- The `HTTPClient` cache state at the reference level. -/
structure RefState where
  cache : List (String × Nat)
  heap : List (Nat × CacheEntry)
  next : Nat
deriving Repr, DecidableEq

/-- The mutations the `HTTPClient` code performs on its cache dict, at the
reference level: a successful slow path stores a freshly allocated entry dict
(line 133), `clear_signature_cache` pops one key or clears the mapping
(lines 142-145), and `get_cache_stats` mutates nothing (lines 149-152). -/
inductive RefOp where
  | write : String → CacheEntry → RefOp
  | pop : String → RefOp
  | clearAll : RefOp
  | stats : RefOp
deriving Repr, DecidableEq

/-- Reference-level state transition of one mutation. -/
def RefState.apply (s : RefState) : RefOp → RefState
  | RefOp.write id e => ⟨alist_set s.cache id s.next, (s.next, e) :: s.heap, s.next + 1⟩
  | RefOp.pop id => ⟨alist_pop s.cache id, s.heap, s.next⟩
  | RefOp.clearAll => ⟨[], s.heap, s.next⟩
  | RefOp.stats => s

/-- Reference-level state after a sequence of mutations. -/
def RefState.applyAll (s : RefState) (ops : List RefOp) : RefState :=
  ops.foldl RefState.apply s

/-- `get_cache_stats` at the reference level: the size, a copy of the outer
mapping (`dict(self._signature_cache)`), and the unchanged state. -/
def RefState.statsRead (s : RefState) : (Nat × List (String × Nat)) × RefState :=
  ((s.cache.length, s.cache), s)

/-- The value a holder of a snapshot observes: each identity paired with the
entry its reference points to in the heap. -/
def snapshotVal (heap : List (Nat × CacheEntry)) (snap : List (String × Nat)) :
    List (String × Option CacheEntry) :=
  snap.map (fun p => (p.1, alist_get heap p.2))

/-- Well-formedness of a reference state: every allocated reference, in the
heap and in the cache, is below the allocation counter. -/
def RefState.WF (s : RefState) : Prop :=
  (∀ p ∈ s.heap, p.1 < s.next) ∧ (∀ p ∈ s.cache, p.2 < s.next)

/-- A convenient backend-mode client with a given cache. -/
def mkBackend (cache : List (String × CacheEntry)) : HTTPClient :=
  { base_url := "http://localhost"
    api_key := some "key"
    default_user_id := none
    default_user_signature := none
    mode := "backend"
    timeout := 10
    signature_cache := cache }

/- Association-list lemmas. -/

theorem alist_get_set_self {α β : Type} [DecidableEq α] (l : List (α × β)) (k : α) (v : β) :
    alist_get (alist_set l k v) k = some v := by
  induction l with
  | nil => simp [alist_set, alist_get]
  | cons p t ih =>
    by_cases h : p.1 = k
    · simp [alist_set, alist_get, h]
    · simp [alist_set, alist_get, h, ih]

theorem alist_get_set_ne {α β : Type} [DecidableEq α] (l : List (α × β)) (k j : α) (v : β)
    (h : k ≠ j) : alist_get (alist_set l k v) j = alist_get l j := by
  induction l with
  | nil => simp [alist_set, alist_get, h]
  | cons p t ih =>
    by_cases hp : p.1 = k
    · simp [alist_set, alist_get, hp, h]
    · simp [alist_set, alist_get, hp, ih]

theorem alist_get_pop_ne {α β : Type} [DecidableEq α] (l : List (α × β)) (k j : α)
    (h : j ≠ k) : alist_get (alist_pop l k) j = alist_get l j := by
  induction l with
  | nil => simp [alist_pop]
  | cons p t ih =>
    by_cases hp : p.1 = k
    · simp [alist_pop, alist_get, hp, Ne.symm h]
    · simp [alist_pop, alist_get, hp, ih]

theorem alist_get_not_mem {α β : Type} [DecidableEq α] (l : List (α × β)) (k : α)
    (h : k ∉ l.map Prod.fst) : alist_get l k = none := by
  induction l with
  | nil => rfl
  | cons p t ih =>
    simp only [List.map_cons, List.mem_cons] at h
    push_neg at h
    have hp : ¬ p.1 = k := fun hc => h.1 hc.symm
    simp [alist_get, hp]
    exact ih h.2

theorem alist_get_pop_self {α β : Type} [DecidableEq α] (l : List (α × β)) (k : α)
    (h : (l.map Prod.fst).Nodup) : alist_get (alist_pop l k) k = none := by
  induction l with
  | nil => rfl
  | cons p t ih =>
    simp only [List.map_cons, List.nodup_cons] at h
    by_cases hp : p.1 = k
    · have hk : k ∉ t.map Prod.fst := by rw [← hp]; exact h.1
      simp [alist_pop, hp]
      exact alist_get_not_mem t k hk
    · simp [alist_pop, alist_get, hp]
      exact ih h.2

theorem alist_pop_absent {α β : Type} [DecidableEq α] (l : List (α × β)) (k : α)
    (h : alist_get l k = none) : alist_pop l k = l := by
  induction l with
  | nil => simp [alist_pop]
  | cons p t ih =>
    by_cases hp : p.1 = k
    · simp [alist_get, hp] at h
    · simp [alist_get, hp] at h
      simp [alist_pop, hp, ih h]

theorem mem_alist_set {α β : Type} [DecidableEq α] {l : List (α × β)} {k : α} {v : β}
    {p : α × β} (h : p ∈ alist_set l k v) : p ∈ l ∨ p = (k, v) := by
  induction l with
  | nil => simp [alist_set] at h; exact Or.inr h
  | cons q t ih =>
    by_cases hq : q.1 = k
    · simp [alist_set, hq] at h
      rcases h with h | h
      · exact Or.inr (by rw [h])
      · exact Or.inl (List.mem_cons_of_mem q h)
    · simp [alist_set, hq] at h
      rcases h with h | h
      · exact Or.inl (by rw [h]; exact List.mem_cons_self q t)
      · rcases ih h with h2 | h2
        · exact Or.inl (List.mem_cons_of_mem q h2)
        · exact Or.inr h2

theorem mem_alist_pop {α β : Type} [DecidableEq α] {l : List (α × β)} {k : α}
    {p : α × β} (h : p ∈ alist_pop l k) : p ∈ l := by
  induction l with
  | nil => simp [alist_pop] at h
  | cons q t ih =>
    by_cases hq : q.1 = k
    · simp [alist_pop, hq] at h
      exact List.mem_cons_of_mem q h
    · simp [alist_pop, hq] at h
      rcases h with h | h
      · exact by rw [h]; exact List.mem_cons_self q t
      · exact List.mem_cons_of_mem q (ih h)

/- Lemmas about the slow path. -/

theorem generate_signature_calls (c : HTTPClient) (user_id : String) (now : Nat)
    (net : NetResult) : (generate_signature c user_id now net).network_calls = 1 := by
  cases net with
  | transportError => rfl
  | response status body =>
    by_cases h : status < 400
    · cases body with
      | malformed => simp [generate_signature, h]
      | json s => cases s <;> simp [generate_signature, h]
    · simp [generate_signature, h]

theorem generate_signature_fail (c : HTTPClient) (user_id : String) (now : Nat)
    (net : NetResult) (h : failsSlow net = true) :
    (∃ msg, (generate_signature c user_id now net).result = Except.error msg) ∧
      (generate_signature c user_id now net).client = c := by
  cases net with
  | transportError => exact ⟨⟨"RequestException", rfl⟩, rfl⟩
  | response status body =>
    by_cases hst : status < 400
    · cases body with
      | malformed => simp [generate_signature, hst]
      | json s =>
        cases s with
        | none => simp [generate_signature, hst]
        | some sig =>
          exfalso
          simp [failsSlow] at h
          omega
    · simp [generate_signature, hst]

theorem generate_signature_ok (c : HTTPClient) (user_id : String) (now : Nat)
    (status : Nat) (sig : String) (h : status < 400) :
    generate_signature c user_id now (NetResult.response status (SignBody.json (some sig))) =
      ⟨Except.ok sig,
       { c with signature_cache :=
           alist_set c.signature_cache user_id ⟨sig, now + 300000⟩ }, 1⟩ := by
  simp [generate_signature, h]

theorem gogs_slow (c : HTTPClient) (user_id : String) (now : Nat) (net : NetResult)
    (hm : c.mode = "backend")
    (hmiss : ∀ e, alist_get c.signature_cache user_id = some e → e.expires ≤ now) :
    get_or_generate_signature c user_id now net = generate_signature c user_id now net := by
  unfold get_or_generate_signature
  rw [hm]
  simp only [ne_eq, not_true_eq_false, if_false]
  cases hc : alist_get c.signature_cache user_id with
  | none => rfl
  | some e =>
    have : ¬ e.expires > now := by
      have := hmiss e hc
      omega
    simp [this]

theorem gogs_hit (c : HTTPClient) (user_id : String) (now : Nat) (net : NetResult)
    (e : CacheEntry) (hm : c.mode = "backend")
    (hc : alist_get c.signature_cache user_id = some e) (hlt : now < e.expires) :
    get_or_generate_signature c user_id now net = ⟨Except.ok e.signature, c, 0⟩ := by
  unfold get_or_generate_signature
  rw [hm]
  simp only [ne_eq, not_true_eq_false, if_false]
  rw [hc]
  simp only []
  have : e.expires > now := hlt
  simp [this]

theorem generate_client_cases (c : HTTPClient) (uid : String) (now : Nat) (net : NetResult) :
    (generate_signature c uid now net).client = c ∨
      ∃ sg, (generate_signature c uid now net).client =
        { c with signature_cache := alist_set c.signature_cache uid ⟨sg, now + 300000⟩ } := by
  cases net with
  | transportError => exact Or.inl rfl
  | response status body =>
    by_cases hst : status < 400
    · cases body with
      | malformed => simp [generate_signature, hst]
      | json s =>
        cases s with
        | none => simp [generate_signature, hst]
        | some sig => exact Or.inr ⟨sig, by simp [generate_signature, hst]⟩
    · simp [generate_signature, hst]

theorem gogs_client_cases (c : HTTPClient) (uid : String) (now : Nat) (net : NetResult) :
    (get_or_generate_signature c uid now net).client = c ∨
      ∃ sg, (get_or_generate_signature c uid now net).client =
        { c with signature_cache := alist_set c.signature_cache uid ⟨sg, now + 300000⟩ } := by
  unfold get_or_generate_signature
  by_cases hm : c.mode ≠ "backend"
  · simp [hm]
  · simp [hm]
    cases hc : alist_get c.signature_cache uid with
    | some e =>
      by_cases he : e.expires > now
      · simp [he]
      · simp [he]
        exact generate_client_cases c uid now net
    | none => exact generate_client_cases c uid now net

theorem gogs_client_mode (c : HTTPClient) (uid : String) (now : Nat) (net : NetResult) :
    (get_or_generate_signature c uid now net).client.mode = c.mode := by
  rcases gogs_client_cases c uid now net with h | ⟨sg, h⟩ <;> rw [h]

theorem validAtWrite_applyOp (c : HTTPClient) (op : Op) (h : ValidAtWrite c) :
    ValidAtWrite (applyOp c op) := by
  cases op with
  | stats => exact h
  | clear uid =>
    intro p hp
    by_cases ht : pyTruthy uid
    · simp [applyOp, clear_signature_cache, ht] at hp
      exact h p (mem_alist_pop hp)
    · simp [applyOp, clear_signature_cache, ht] at hp
  | sig uid now net =>
    rcases gogs_client_cases c uid now net with hc | ⟨sg, hc⟩
    · show ValidAtWrite (get_or_generate_signature c uid now net).client
      rw [hc]; exact h
    · show ValidAtWrite (get_or_generate_signature c uid now net).client
      rw [hc]
      intro p hp
      rcases mem_alist_set hp with hmem | heq
      · exact h p hmem
      · rw [heq]; exact ⟨now, rfl, by show now < now + 300000; omega⟩

theorem validAtWrite_applyOps (c : HTTPClient) (ops : List Op) (h : ValidAtWrite c) :
    ValidAtWrite (applyOps c ops) := by
  induction ops generalizing c with
  | nil => exact h
  | cons op ops ih => exact ih _ (validAtWrite_applyOp c op h)

theorem untouched_preserved (c : HTTPClient) (op : Op) (id : String) (e : CacheEntry)
    (ht : touches op id = false) (hc : alist_get c.signature_cache id = some e) :
    alist_get (applyOp c op).signature_cache id = some e := by
  cases op with
  | stats => exact hc
  | clear uid =>
    cases uid with
    | none => simp [touches] at ht
    | some u =>
      simp [touches] at ht
      have htr : pyTruthy (some u) = true := by simp [pyTruthy, ht.1]
      show alist_get (clear_signature_cache c (some u)).signature_cache id = some e
      simp [clear_signature_cache, htr, Option.getD]
      rw [alist_get_pop_ne c.signature_cache u id (Ne.symm ht.2)]
      exact hc
  | sig uid now net =>
    simp [touches] at ht
    rcases gogs_client_cases c uid now net with h | ⟨sg, h⟩
    · show alist_get (get_or_generate_signature c uid now net).client.signature_cache id = some e
      rw [h]; exact hc
    · show alist_get (get_or_generate_signature c uid now net).client.signature_cache id = some e
      rw [h]
      show alist_get (alist_set c.signature_cache uid ⟨sg, now + 300000⟩) id = some e
      rw [alist_get_set_ne c.signature_cache uid id _ ht]
      exact hc

/- Reference-level lemmas. -/

theorem refState_next_mono (s : RefState) (op : RefOp) : s.next ≤ (s.apply op).next := by
  cases op <;> simp [RefState.apply]

theorem heapGet_apply (s : RefState) (op : RefOp) (r : Nat) (hr : r < s.next) :
    alist_get (s.apply op).heap r = alist_get s.heap r := by
  cases op with
  | write id e =>
    have hne : ¬ s.next = r := by omega
    simp [RefState.apply, alist_get, hne]
  | pop id => rfl
  | clearAll => rfl
  | stats => rfl

theorem heapGet_applyAll (s : RefState) (ops : List RefOp) (r : Nat) (hr : r < s.next) :
    alist_get (s.applyAll ops).heap r = alist_get s.heap r := by
  induction ops generalizing s with
  | nil => rfl
  | cons op ops ih =>
    have h2 := ih (s.apply op) (lt_of_lt_of_le hr (refState_next_mono s op))
    exact h2.trans (heapGet_apply s op r hr)

theorem snapshotVal_congr (h1 h2 : List (Nat × CacheEntry)) (snap : List (String × Nat))
    (h : ∀ p ∈ snap, alist_get h1 p.2 = alist_get h2 p.2) :
    snapshotVal h1 snap = snapshotVal h2 snap := by
  induction snap with
  | nil => rfl
  | cons p t ih =>
    simp only [snapshotVal, List.map_cons]
    rw [h p (List.mem_cons_self p t)]
    have := ih (fun q hq => h q (List.mem_cons_of_mem p hq))
    simp only [snapshotVal] at this
    rw [this]

/-- Claim C1: in backend mode, with a cached entry for the identity,
`_get_or_generate_signature` returns the cached signature with zero network
calls and no state change exactly when `now < expires`; when
`expires ≤ now` (strict comparison, so an entry exactly at its expiry
instant counts as expired) the refresh path is taken and one network
request is performed. -/
theorem c1_cache_hit_iff_now_lt_expires (c : HTTPClient) (user_id : String)
    (e : CacheEntry) (now : Nat) (net : NetResult)
    (hm : c.mode = "backend")
    (hc : alist_get c.signature_cache user_id = some e) :
    ((get_or_generate_signature c user_id now net).network_calls = 0 ↔ now < e.expires) ∧
    (now < e.expires →
      get_or_generate_signature c user_id now net = ⟨Except.ok e.signature, c, 0⟩) ∧
    (e.expires ≤ now →
      (get_or_generate_signature c user_id now net).network_calls = 1) := by
  by_cases hlt : now < e.expires
  · rw [gogs_hit c user_id now net e hm hc hlt]
    exact ⟨by simp [hlt], fun _ => rfl, fun hle => absurd hlt (by omega)⟩
  · have hle : e.expires ≤ now := by omega
    have hmiss : ∀ e2, alist_get c.signature_cache user_id = some e2 → e2.expires ≤ now := by
      intro e2 he2
      rw [hc] at he2
      injection he2 with h
      rw [← h]
      exact hle
    rw [gogs_slow c user_id now net hm hmiss]
    refine ⟨?_, fun h => absurd h hlt, fun _ => generate_signature_calls c user_id now net⟩
    rw [generate_signature_calls c user_id now net]
    simp [hlt]

/-- Claim C1 witness: entry written at t=0 with expiry 300000; a call at
t=299999 is served from the cache with no network access, a call at
t=300000 takes the network path. -/
theorem c1_witness :
    (get_or_generate_signature (mkBackend [("alice", ⟨"sigA", 300000⟩)]) "alice" 299999
        NetResult.transportError =
      ⟨Except.ok "sigA", mkBackend [("alice", ⟨"sigA", 300000⟩)], 0⟩) ∧
    (get_or_generate_signature (mkBackend [("alice", ⟨"sigA", 300000⟩)]) "alice" 300000
        (NetResult.response 200 (SignBody.json (some "sigA2")))).network_calls = 1 :=
  ⟨(c1_cache_hit_iff_now_lt_expires (mkBackend [("alice", ⟨"sigA", 300000⟩)]) "alice"
      ⟨"sigA", 300000⟩ 299999 NetResult.transportError rfl (by decide)).2.1 (by decide),
   (c1_cache_hit_iff_now_lt_expires (mkBackend [("alice", ⟨"sigA", 300000⟩)]) "alice"
      ⟨"sigA", 300000⟩ 300000 (NetResult.response 200 (SignBody.json (some "sigA2"))) rfl
      (by decide)).2.2 (by decide)⟩

/-- Claim C2: when the slow path is taken (backend mode, no unexpired cached
entry) and the network interaction fails in any of the specified ways, the
call raises and the client — cache included — is exactly as before. -/
theorem c2_failure_leaves_cache_unchanged (c : HTTPClient) (user_id : String)
    (now : Nat) (net : NetResult) (hm : c.mode = "backend")
    (hmiss : ∀ e, alist_get c.signature_cache user_id = some e → e.expires ≤ now)
    (hf : failsSlow net = true) :
    (∃ msg, (get_or_generate_signature c user_id now net).result = Except.error msg) ∧
      (get_or_generate_signature c user_id now net).client = c := by
  rw [gogs_slow c user_id now net hm hmiss]
  exact generate_signature_fail c user_id now net hf

/-- Claim C2 witness: the spec scenario — the endpoint answers 503 for
"bob", the call fails and no entry is written. -/
theorem c2_witness :
    (∃ msg, (get_or_generate_signature (mkBackend []) "bob" 0
        (NetResult.response 503 (SignBody.json none))).result = Except.error msg) ∧
      (get_or_generate_signature (mkBackend []) "bob" 0
        (NetResult.response 503 (SignBody.json none))).client = mkBackend [] :=
  c2_failure_leaves_cache_unchanged (mkBackend []) "bob" 0
    (NetResult.response 503 (SignBody.json none)) rfl
    (fun e he => Option.noConfusion he) (by decide)

/-- Claim C3: a 2xx response whose body carries a signature makes the slow
path store an entry with `expires = now + 300000` (exact integer addition of
the fixed 5-minute TTL), overwriting any prior entry for the identity, and
return exactly the signature from the body. -/
theorem c3_success_writes_ttl_entry (c : HTTPClient) (user_id : String)
    (now status : Nat) (sig : String) (hm : c.mode = "backend")
    (hmiss : ∀ e, alist_get c.signature_cache user_id = some e → e.expires ≤ now)
    (h2 : 200 ≤ status) (h3 : status < 300) :
    get_or_generate_signature c user_id now
        (NetResult.response status (SignBody.json (some sig))) =
      ⟨Except.ok sig,
       { c with signature_cache :=
           alist_set c.signature_cache user_id ⟨sig, now + 300000⟩ }, 1⟩ ∧
    alist_get (get_or_generate_signature c user_id now
        (NetResult.response status (SignBody.json (some sig)))).client.signature_cache
        user_id = some ⟨sig, now + 300000⟩ := by
  have h4 : status < 400 := by omega
  have he := (gogs_slow c user_id now (NetResult.response status (SignBody.json (some sig)))
      hm hmiss).trans (generate_signature_ok c user_id now status sig h4)
  refine ⟨he, ?_⟩
  rw [he]
  exact alist_get_set_self c.signature_cache user_id ⟨sig, now + 300000⟩

/-- Claim C3 witness: the spec scenario — at t=0 "alice" is signed as
"sigA" and the cache entry expires at 300000, overwriting an older expired
entry. -/
theorem c3_witness :
    get_or_generate_signature (mkBackend [("alice", ⟨"old", 0⟩)]) "alice" 0
        (NetResult.response 200 (SignBody.json (some "sigA"))) =
      ⟨Except.ok "sigA",
       { mkBackend [("alice", ⟨"old", 0⟩)] with
           signature_cache := alist_set [("alice", ⟨"old", 0⟩)] "alice" ⟨"sigA", 300000⟩ }, 1⟩ ∧
    alist_get (get_or_generate_signature (mkBackend [("alice", ⟨"old", 0⟩)]) "alice" 0
        (NetResult.response 200 (SignBody.json (some "sigA")))).client.signature_cache
        "alice" = some ⟨"sigA", 300000⟩ :=
  c3_success_writes_ttl_entry (mkBackend [("alice", ⟨"old", 0⟩)]) "alice" 0 200 "sigA" rfl
    (fun e he => by injection he with h; rw [← h]) (by omega) (by omega)

/-- Claim C4 counterexample: a 304 response — a non-2xx status — whose body
carries a signature is accepted by the code, because `requests`' `response.ok`
means `status < 400`: the signature is returned (no failure is raised) and
the network path was taken, contradicting the claim that every non-2xx
status fails. -/
theorem c4_counterexample_304_succeeds :
    (¬ (200 ≤ 304 ∧ 304 < 300)) ∧
    (get_or_generate_signature (mkBackend []) "u" 0
        (NetResult.response 304 (SignBody.json (some "sigX")))).result = Except.ok "sigX" ∧
    (get_or_generate_signature (mkBackend []) "u" 0
        (NetResult.response 304 (SignBody.json (some "sigX")))).network_calls = 1 :=
  ⟨by omega, rfl, rfl⟩

/-- Claim C4 (amended): the slow path raises a signing failure if and only if
the transport failed, the endpoint answered with status ≥ 400, or a
status < 400 response lacked a parsable `signature` field; every response
with status < 400 — 3xx included, since `response.ok` is `status < 400` —
that carries a signature field succeeds. -/
theorem c4_amended_fail_iff (c : HTTPClient) (user_id : String) (now : Nat)
    (net : NetResult) (hm : c.mode = "backend")
    (hmiss : ∀ e, alist_get c.signature_cache user_id = some e → e.expires ≤ now) :
    (∃ msg, (get_or_generate_signature c user_id now net).result = Except.error msg) ↔
      failsSlow net = true := by
  rw [gogs_slow c user_id now net hm hmiss]
  constructor
  · intro ⟨msg, hmsg⟩
    by_contra hf
    cases net with
    | transportError => simp [failsSlow] at hf
    | response status body =>
      cases body with
      | malformed => simp [failsSlow] at hf
      | json s =>
        cases s with
        | none => simp [failsSlow] at hf
        | some sig =>
          simp [failsSlow] at hf
          have hlt : status < 400 := by omega
          rw [generate_signature_ok c user_id now status sig hlt] at hmsg
          exact Except.noConfusion hmsg
  · intro hf
    exact (generate_signature_fail c user_id now net hf).1

/-- Claim C4 witness: a transport failure on an empty cache raises. -/
theorem c4_witness :
    (∃ msg, (get_or_generate_signature (mkBackend []) "u" 0
        NetResult.transportError).result = Except.error msg) ↔
      failsSlow NetResult.transportError = true :=
  c4_amended_fail_iff (mkBackend []) "u" 0 NetResult.transportError rfl
    (fun _ he => Option.noConfusion he)

/-- Claim C5 counterexample: the claim quantifies over any cache state and
any successful first call.  With an entry written at t=0 (expiry 300000), a
successful fast-path call at t=299999 followed by a second call just 1 ms
later — well within 300000 ms of the first — takes the network path: the
second call performs one network request and returns a different signature. -/
theorem c5_counterexample_hit_near_expiry :
    (get_or_generate_signature (mkBackend [("u", ⟨"s", 300000⟩)]) "u" 299999
        NetResult.transportError).result = Except.ok "s" ∧
    (get_or_generate_signature (mkBackend [("u", ⟨"s", 300000⟩)]) "u" 299999
        NetResult.transportError).network_calls = 0 ∧
    (300000 : Nat) < 299999 + 300000 ∧
    (get_or_generate_signature
        (get_or_generate_signature (mkBackend [("u", ⟨"s", 300000⟩)]) "u" 299999
          NetResult.transportError).client "u" 300000
        (NetResult.response 200 (SignBody.json (some "s2")))).network_calls = 1 ∧
    (get_or_generate_signature
        (get_or_generate_signature (mkBackend [("u", ⟨"s", 300000⟩)]) "u" 299999
          NetResult.transportError).client "u" 300000
        (NetResult.response 200 (SignBody.json (some "s2")))).result = Except.ok "s2" :=
  ⟨rfl, rfl, by omega, rfl, rfl⟩

/-- Claim C5 (amended): after a `get_or_refresh` whose slow path succeeds at
time t — a refresh that writes a fresh entry — any second call for the same
identity strictly within 300000 ms of t returns the same signature from the
cache, performs zero network calls, and leaves the state unchanged.  (After
a fast-path hit the guarantee instead only extends to the pre-existing
entry's `expires_at`, as the counterexample shows.) -/
theorem c5_amended_refresh_then_hit (c : HTTPClient) (user_id : String)
    (t status : Nat) (sig : String) (hm : c.mode = "backend")
    (hmiss : ∀ e, alist_get c.signature_cache user_id = some e → e.expires ≤ t)
    (h2 : 200 ≤ status) (h3 : status < 300) :
    (get_or_generate_signature c user_id t
        (NetResult.response status (SignBody.json (some sig)))).result = Except.ok sig ∧
    ∀ t2 net2, t2 < t + 300000 →
      get_or_generate_signature
          (get_or_generate_signature c user_id t
            (NetResult.response status (SignBody.json (some sig)))).client
          user_id t2 net2 =
        ⟨Except.ok sig,
         (get_or_generate_signature c user_id t
           (NetResult.response status (SignBody.json (some sig)))).client, 0⟩ := by
  have h4 : status < 400 := by omega
  have he := (gogs_slow c user_id t (NetResult.response status (SignBody.json (some sig)))
      hm hmiss).trans (generate_signature_ok c user_id t status sig h4)
  constructor
  · rw [he]
  · intro t2 net2 ht2
    have hm1 : (get_or_generate_signature c user_id t
        (NetResult.response status (SignBody.json (some sig)))).client.mode = "backend" := by
      rw [gogs_client_mode]; exact hm
    have hcache : alist_get (get_or_generate_signature c user_id t
        (NetResult.response status (SignBody.json (some sig)))).client.signature_cache
        user_id = some ⟨sig, t + 300000⟩ := by
      rw [he]
      exact alist_get_set_self c.signature_cache user_id ⟨sig, t + 300000⟩
    exact gogs_hit _ user_id t2 net2 ⟨sig, t + 300000⟩ hm1 hcache ht2

/-- Claim C5 witness: a refresh for "alice" at t=0 returning "sigA", then a
second call at t=299999 served from the cache with zero network calls. -/
theorem c5_witness :
    get_or_generate_signature
        (get_or_generate_signature (mkBackend []) "alice" 0
          (NetResult.response 200 (SignBody.json (some "sigA")))).client
        "alice" 299999 NetResult.transportError =
      ⟨Except.ok "sigA",
       (get_or_generate_signature (mkBackend []) "alice" 0
         (NetResult.response 200 (SignBody.json (some "sigA")))).client, 0⟩ :=
  (c5_amended_refresh_then_hit (mkBackend []) "alice" 0 200 "sigA" rfl
      (fun _ he => Option.noConfusion he) (by omega) (by omega)).2 299999
      NetResult.transportError (by omega)

/-- Claim C6 counterexample: with the cache holding only alice's entry, a
clear for the (absent) empty-string identity should by the claim be a no-op
and leave alice's entry, but Python `if user_id:` treats `""` as falsy, so
the code takes the clear-all branch and alice's entry is removed. -/
theorem c6_counterexample_empty_identity_clears_all :
    alist_get (mkBackend [("alice", ⟨"sigA", 300000⟩)]).signature_cache "" = none ∧
    (clear_signature_cache (mkBackend [("alice", ⟨"sigA", 300000⟩)])
        (some "")).signature_cache = [] ∧
    alist_get (clear_signature_cache (mkBackend [("alice", ⟨"sigA", 300000⟩)])
        (some "")).signature_cache "alice" = none :=
  ⟨rfl, rfl, rfl⟩

/-- Claim C6 (amended): for every NON-empty identity, clear removes exactly
that identity's entry (a no-op when absent) and leaves every other identity
unchanged; clear with no identity — or with the empty-string identity, which
Python truthiness sends to the same branch — removes all entries, after
which `stats().size = 0`; clear is a total function. -/
theorem c6_amended_clear_semantics :
    (∀ (c : HTTPClient) (id : String), id ≠ "" →
        (c.signature_cache.map Prod.fst).Nodup →
        alist_get (clear_signature_cache c (some id)).signature_cache id = none) ∧
    (∀ (c : HTTPClient) (id j : String), id ≠ "" → j ≠ id →
        alist_get (clear_signature_cache c (some id)).signature_cache j =
          alist_get c.signature_cache j) ∧
    (∀ (c : HTTPClient) (id : String), id ≠ "" →
        alist_get c.signature_cache id = none →
        clear_signature_cache c (some id) = c) ∧
    (∀ c : HTTPClient, (clear_signature_cache c none).signature_cache = []) ∧
    (∀ c : HTTPClient, (get_cache_stats (clear_signature_cache c none)).1.size = 0) ∧
    (∀ c : HTTPClient, (clear_signature_cache c (some "")).signature_cache = []) := by
  have htr : ∀ id : String, id ≠ "" → pyTruthy (some id) = true := by
    intro id h
    simp [pyTruthy, h]
  refine ⟨?_, ?_, ?_, fun c => rfl, fun c => rfl, fun c => rfl⟩
  · intro c id hne hnd
    simp only [clear_signature_cache, htr id hne, if_pos, Option.getD]
    exact alist_get_pop_self c.signature_cache id hnd
  · intro c id j hne hj
    simp only [clear_signature_cache, htr id hne, if_pos, Option.getD]
    exact alist_get_pop_ne c.signature_cache id j hj
  · intro c id hne habs
    simp only [clear_signature_cache, htr id hne, if_pos, Option.getD]
    rw [alist_pop_absent c.signature_cache id habs]

/-- Claim C6 witness: clearing "alice" removes her entry and leaves "bob"
untouched. -/
theorem c6_witness :
    alist_get (clear_signature_cache
        (mkBackend [("alice", ⟨"sigA", 300000⟩), ("bob", ⟨"sigB", 7⟩)])
        (some "alice")).signature_cache "alice" = none ∧
    alist_get (clear_signature_cache
        (mkBackend [("alice", ⟨"sigA", 300000⟩), ("bob", ⟨"sigB", 7⟩)])
        (some "alice")).signature_cache "bob" =
      alist_get (mkBackend [("alice", ⟨"sigA", 300000⟩),
        ("bob", ⟨"sigB", 7⟩)]).signature_cache "bob" :=
  ⟨c6_amended_clear_semantics.1
      (mkBackend [("alice", ⟨"sigA", 300000⟩), ("bob", ⟨"sigB", 7⟩)]) "alice"
      (by decide) (by decide),
   c6_amended_clear_semantics.2.1
      (mkBackend [("alice", ⟨"sigA", 300000⟩), ("bob", ⟨"sigB", 7⟩)]) "alice" "bob"
      (by decide) (by decide)⟩

/-- Claim C7: `get_cache_stats` returns the entry count together with a copy
of the mapping and leaves the client unchanged (so two consecutive calls
agree); and at the reference level, where the aliasing of Python dicts is
explicit, any later sequence of cache mutations leaves the dereferenced
value of a previously taken snapshot unchanged — writes allocate fresh entry
dicts, never mutating an existing heap cell. -/
theorem c7_stats_pure_and_snapshot_immutable (s : RefState) (ops : List RefOp)
    (hwf : s.WF) :
    (∀ c : HTTPClient, get_cache_stats c =
      (⟨c.signature_cache.length, c.signature_cache⟩, c)) ∧
    RefState.statsRead s = ((s.cache.length, s.cache), s) ∧
    snapshotVal (RefState.applyAll s ops).heap ((RefState.statsRead s).1).2 =
      snapshotVal s.heap ((RefState.statsRead s).1).2 := by
  refine ⟨fun c => rfl, rfl, ?_⟩
  apply snapshotVal_congr
  intro p hp
  exact heapGet_applyAll s ops p.2 (hwf.2 p hp)

/-- Claim C7 witness: a snapshot of a one-entry cache keeps its value after
a later overwrite of the entry and a clear-all. -/
theorem c7_witness :
    (∀ c : HTTPClient, get_cache_stats c =
      (⟨c.signature_cache.length, c.signature_cache⟩, c)) ∧
    RefState.statsRead ⟨[("alice", 0)], [(0, ⟨"sigA", 300000⟩)], 1⟩ =
      (([("alice", 0)].length, [("alice", 0)]),
       ⟨[("alice", 0)], [(0, ⟨"sigA", 300000⟩)], 1⟩) ∧
    snapshotVal (RefState.applyAll ⟨[("alice", 0)], [(0, ⟨"sigA", 300000⟩)], 1⟩
        [RefOp.write "alice" ⟨"sigB", 600000⟩, RefOp.clearAll]).heap
        ((RefState.statsRead ⟨[("alice", 0)], [(0, ⟨"sigA", 300000⟩)], 1⟩).1).2 =
      snapshotVal (⟨[("alice", 0)], [(0, ⟨"sigA", 300000⟩)], 1⟩ : RefState).heap
        ((RefState.statsRead ⟨[("alice", 0)], [(0, ⟨"sigA", 300000⟩)], 1⟩).1).2 :=
  c7_stats_pure_and_snapshot_immutable ⟨[("alice", 0)], [(0, ⟨"sigA", 300000⟩)], 1⟩
    [RefOp.write "alice" ⟨"sigB", 600000⟩, RefOp.clearAll] ⟨by decide, by decide⟩

/-- Claim C8: starting from an empty cache, every state reachable through
any sequence of `get_or_refresh` / `clear` / `stats` operations satisfies
the invariant that each present entry's expiry is `w + 300000` for the time
`w` of its last write — so the entry was strictly unexpired at that moment;
and no operation that does not name an identity (for overwrite or clear)
removes that identity's entry: in particular nothing evicts an entry merely
for being expired. -/
theorem c8_invariant_and_no_eviction :
    (∀ c : HTTPClient, c.signature_cache = [] → ∀ ops : List Op,
        ValidAtWrite (applyOps c ops)) ∧
    (∀ (c : HTTPClient) (op : Op) (id : String) (e : CacheEntry),
        touches op id = false → alist_get c.signature_cache id = some e →
        alist_get (applyOp c op).signature_cache id = some e) := by
  constructor
  · intro c hc ops
    apply validAtWrite_applyOps
    intro p hp
    rw [hc] at hp
    simp at hp
  · exact untouched_preserved

/-- Claim C8 witness: a write, a failed refresh and a stats call keep the
invariant from empty; and a slow-path call for "bob" at a time when alice's
entry is long expired leaves alice's (expired) entry in place. -/
theorem c8_witness :
    ValidAtWrite (applyOps (mkBackend [])
      [Op.sig "alice" 0 (NetResult.response 200 (SignBody.json (some "sigA"))),
       Op.sig "bob" 1 NetResult.transportError, Op.stats]) ∧
    alist_get (applyOp (mkBackend [("alice", ⟨"sigA", 300000⟩)])
        (Op.sig "bob" 999999 NetResult.transportError)).signature_cache "alice" =
      some ⟨"sigA", 300000⟩ :=
  ⟨c8_invariant_and_no_eviction.1 (mkBackend []) rfl
      [Op.sig "alice" 0 (NetResult.response 200 (SignBody.json (some "sigA"))),
       Op.sig "bob" 1 NetResult.transportError, Op.stats],
   c8_invariant_and_no_eviction.2 (mkBackend [("alice", ⟨"sigA", 300000⟩)])
      (Op.sig "bob" 999999 NetResult.transportError) "alice" ⟨"sigA", 300000⟩
      (by decide) (by decide)⟩

/-- Claim C9: outside backend mode `_get_or_generate_signature` returns the
configured `default_user_signature` when one is set (the falsy empty string
also yields `""`) and the empty string when unset, performs no network call,
and leaves the client — signature cache included — unchanged. -/
theorem c9_non_backend_mode_default (c : HTTPClient) (user_id : String)
    (now : Nat) (net : NetResult) (hm : c.mode ≠ "backend") :
    get_or_generate_signature c user_id now net =
      ⟨Except.ok (pyStrOr c.default_user_signature ""), c, 0⟩ ∧
    (∀ s, c.default_user_signature = some s →
        (get_or_generate_signature c user_id now net).result = Except.ok s) ∧
    (c.default_user_signature = none →
        (get_or_generate_signature c user_id now net).result = Except.ok "") := by
  have h : get_or_generate_signature c user_id now net =
      ⟨Except.ok (pyStrOr c.default_user_signature ""), c, 0⟩ := by
    unfold get_or_generate_signature
    simp [hm]
  refine ⟨h, ?_, ?_⟩
  · intro s hs
    rw [h, hs]
    by_cases hse : s = ""
    · simp [pyStrOr, hse]
    · simp [pyStrOr, hse]
  · intro hn
    rw [h, hn]
    rfl

/-- Claim C9 witness: a frontend-mode client with a configured default
signature returns it with no network call and an unchanged client. -/
theorem c9_witness :
    get_or_generate_signature
        { mkBackend [("x", ⟨"y", 1⟩)] with
            mode := "frontend", default_user_signature := some "defsig" }
        "u" 0 NetResult.transportError =
      ⟨Except.ok (pyStrOr (some "defsig") ""),
       { mkBackend [("x", ⟨"y", 1⟩)] with
           mode := "frontend", default_user_signature := some "defsig" }, 0⟩ :=
  (c9_non_backend_mode_default
      { mkBackend [("x", ⟨"y", 1⟩)] with
          mode := "frontend", default_user_signature := some "defsig" }
      "u" 0 NetResult.transportError (by decide)).1

/-- Claim C10: `validate_pagination_query` rejects a query exactly when more
than one of `before`, `after`, `anchor` is truthy, otherwise returns
normally; `list_threads` runs the validation before assembling its request,
so an over-specified query produces the error and no request is built. -/
theorem c10_validate_iff_and_list_threads (q : ThreadListQuery) :
    ((∃ e, validate_pagination_query q = Except.error e) ↔ 1 < numRefs q) ∧
    (1 < numRefs q → ∃ e, list_threads q = Except.error e) ∧
    (numRefs q ≤ 1 → validate_pagination_query q = Except.ok ()) := by
  have hval : validate_pagination_query q =
      if 1 < numRefs q then
        Except.error "only one of anchor, before, after can be specified"
      else Except.ok () := rfl
  refine ⟨?_, ?_, ?_⟩
  · constructor
    · intro ⟨e, he⟩
      by_contra hn
      rw [hval, if_neg hn] at he
      exact Except.noConfusion he
    · intro h
      exact ⟨"only one of anchor, before, after can be specified",
        by rw [hval, if_pos h]⟩
  · intro h
    refine ⟨"only one of anchor, before, after can be specified", ?_⟩
    unfold list_threads
    rw [hval, if_pos h]
  · intro h
    rw [hval, if_neg (by omega)]

/-- Claim C10 witness: a query with truthy `before` and `anchor` makes
`list_threads` fail before any request is built, and a query with only
`anchor` passes validation. -/
theorem c10_witness :
    (∃ e, list_threads ⟨none, some "b", none, some "a", none⟩ = Except.error e) ∧
    validate_pagination_query ⟨some 10, none, none, some "a", some "created_ts"⟩ =
      Except.ok () :=
  ⟨(c10_validate_iff_and_list_threads ⟨none, some "b", none, some "a", none⟩).2.1
      (by decide),
   (c10_validate_iff_and_list_threads
      ⟨some 10, none, none, some "a", some "created_ts"⟩).2.2 (by decide)⟩
